import Mathlib

/-!
Verification of the core state-transition engine of a browser Tetris game
(`src/state.ts`, `src/types.ts`, `src/util.ts`, `src/main.ts`).

The TypeScript source is shallowly embedded: matrices become `List (List Nat)`,
grid coordinates become `Int` (the piece anchor may be negative while spawning),
JS numbers used as RNG draws become `ℚ`, and the `State` / `Tetromino` record
types become structures.  Array callbacks with an index argument
(`some((row, y) => ...)`, `map((row, y) => ...)`) are embedded through the
indexed helpers `anyIdx` / `mapIdx` below.
-/

/-- `Array.prototype.some((elem, idx) => p idx elem)` starting at index `i`. -/
def anyIdx (p : Nat → α → Bool) : Nat → List α → Bool
  | _, [] => false
  | i, a :: as => p i a || anyIdx p (i + 1) as

/-- `Array.prototype.map((elem, idx) => f idx elem)` starting at index `i`. -/
def mapIdx (f : Nat → α → β) : Nat → List α → List β
  | _, [] => []
  | i, a :: as => f i a :: mapIdx f (i + 1) as

namespace Constants

/-- `Constants.GRID_WIDTH` from `types.ts`. -/
def GRID_WIDTH : Int := 10

/-- `Constants.GRID_HEIGHT` from `types.ts`. -/
def GRID_HEIGHT : Int := 20

end Constants

/-- The `Tetromino` record from `types.ts`. -/
structure Tetromino where
  key : String
  orientation : Nat
  shape : List (List Nat)
  colour : String
  x : Int
  y : Int
deriving DecidableEq, Repr

/-- The `State` record from `types.ts`.  `level`, `score` and `highScore` are
non-negative integers throughout the program, so they are embedded as `Nat`. -/
structure State where
  gameEnd : Bool
  gamePause : Bool
  gameRestart : Bool
  grid : List (List Nat)
  currentTetromino : Tetromino
  nextTetromino : Tetromino
  holdTetromino : Option Tetromino
  level : Nat
  score : Nat
  highScore : Nat
deriving DecidableEq, Repr

/-- The `TetrominoShapes` record from `types.ts`, as a total function on keys.
A key absent from the record gives `[]` (the JS lookup gives `undefined`). -/
def TetrominoShapes (key : String) : List (List Nat) :=
  if key = "I" then [[0, 0, 0, 0], [1, 1, 1, 1], [0, 0, 0, 0], [0, 0, 0, 0]]
  else if key = "J" then [[1, 0, 0], [1, 1, 1], [0, 0, 0]]
  else if key = "L" then [[0, 0, 1], [1, 1, 1], [0, 0, 0]]
  else if key = "O" then [[1, 1], [1, 1]]
  else if key = "S" then [[0, 1, 1], [1, 1, 0], [0, 0, 0]]
  else if key = "T" then [[0, 1, 0], [1, 1, 1], [0, 0, 0]]
  else if key = "Z" then [[1, 1, 0], [0, 1, 1], [0, 0, 0]]
  else []

/-- The `TetrominoColours` record from `types.ts`. -/
def TetrominoColours (key : String) : String :=
  if key = "I" then "cyan"
  else if key = "J" then "orange"
  else if key = "L" then "dodgerblue"
  else if key = "O" then "yellow"
  else if key = "T" then "magenta"
  else if key = "S" then "green"
  else if key = "Z" then "red"
  else "undefined"

/-- The kick-offset table shared verbatim by the J, L, S, T and Z entries of
`WallKickData` in `types.ts` (the source repeats this literal five times). -/
def JLSTZWallKicks : List (List (List Int)) :=
  [[[-1, 0], [-1, -1], [0, 2], [-1, 2]],
   [[1, 0], [1, 1], [0, -2], [1, -2]],
   [[1, 0], [1, -1], [0, 2], [1, 2]],
   [[-1, 0], [-1, 1], [0, -2], [-1, -2]]]

/-- The `WallKickData` record from `types.ts`, as a total function on keys.
Note the `O` entry is the literal `[[[]]]`: one orientation row holding a
single empty offset pair.  A key absent from the record gives `[]`. -/
def WallKickData (key : String) : List (List (List Int)) :=
  if key = "I" then
    [[[-2, 0], [1, 0], [-2, 1], [1, -2]],
     [[-1, 0], [2, 0], [-1, -2], [2, 1]],
     [[2, 0], [-1, 0], [2, -1], [-1, 2]],
     [[1, 0], [-2, 0], [1, 2], [-2, -1]]]
  else if key = "J" then JLSTZWallKicks
  else if key = "L" then JLSTZWallKicks
  else if key = "O" then [[[]]]
  else if key = "S" then JLSTZWallKicks
  else if key = "T" then JLSTZWallKicks
  else if key = "Z" then JLSTZWallKicks
  else []

/-- `Object.keys(TetrominoShapes)` in insertion order, used by
`getRandomTetromino` in `util.ts`. -/
def tetrominoKeys : List String := ["I", "J", "L", "O", "S", "T", "Z"]

namespace RNG

/-- `RNG.m` from `util.ts`. -/
def m : Nat := 0x7FFFFFFF

/-- `RNG.a` from `util.ts`. -/
def a : Nat := 1103515245

/-- `RNG.c` from `util.ts`. -/
def c : Nat := 12345

/-- `RNG.hash` from `util.ts`, on natural-number seeds in exact arithmetic.
The source computes `(a * seed + c) % m` in IEEE-754 doubles: for seeds with
`a * seed + c ≤ 2^53` (seed ≤ 8162278) the two agree exactly, but for larger
seeds the product rounds (at seed 1914008856 the exact product ≈ 2^61 rounds
by 56, and the source yields 2147483533 where this definition yields
2147483646), and the seeds chained from `Math.random()` are not even
integers, so this definition is not a faithful model of the source outside
the double-exact domain. -/
def hash (seed : Nat) : Nat := (a * seed + c) % m

/-- `RNG.scale` from `util.ts`: `hash / (m - 1)` as an exact rational (the
source divides doubles). -/
def scale (h : Nat) : ℚ := (h : ℚ) / ((m : ℚ) - 1)

end RNG

/-- `INITIAL_ORIENTATION` from `util.ts`. -/
def INITIAL_ORIENTATION : Nat := 0

/-- `getRandomTetromino` from `util.ts`.  `Math.floor(rng * keys.length)` is
`⌊rng * 7⌋`; for the `rng ∈ [0, 1)` values the game feeds it the index is in
range, and the out-of-range sentinel `"undefined"` mirrors the JS `undefined`
lookup result (negative indices are clamped by `Int.toNat`). -/
def getRandomTetromino (rng : ℚ) : Tetromino :=
  let randomIndex := (Int.floor (rng * (tetrominoKeys.length : ℚ))).toNat
  let randomTetrominoKey := tetrominoKeys.getD randomIndex "undefined"
  { key := randomTetrominoKey
    orientation := INITIAL_ORIENTATION
    shape := TetrominoShapes randomTetrominoKey
    colour := TetrominoColours randomTetrominoKey
    x := Constants.GRID_WIDTH / 2 -
      (((TetrominoShapes randomTetrominoKey).headD []).length / 2 : Nat)
    y := -2 }

/-- `isCollision` from `state.ts`.  The in-grid cell lookup
`grid[newY][newX] === 1` is embedded with `getD` defaults; the source only
reaches it with `0 ≤ newY < GRID_HEIGHT` and `0 ≤ newX < GRID_WIDTH` already
established by the preceding disjuncts. -/
def isCollision (x y : Int) (shape grid : List (List Nat)) : Bool :=
  anyIdx (fun yBlock row =>
    anyIdx (fun xBlock cell =>
      if cell = 1 then
        let newX := x + xBlock
        let newY := y + yBlock
        decide (newY ≥ Constants.GRID_HEIGHT)
        || decide (newX < 0)
        || decide (newX ≥ Constants.GRID_WIDTH)
        || (decide (newY ≥ 0) && ((grid.getD newY.toNat []).getD newX.toNat 0 == 1))
      else false) 0 row) 0 shape

/-- `isOutOfBounds` from `state.ts`. -/
def isOutOfBounds (x y : Int) (shape : List (List Nat)) : Bool :=
  anyIdx (fun yBlock row =>
    anyIdx (fun xBlock cell =>
      if cell = 1 then
        let newX := x + xBlock
        let newY := y + yBlock
        decide (newX < 0)
        || decide (newX ≥ Constants.GRID_WIDTH)
        || decide (newY ≥ Constants.GRID_HEIGHT)
      else false) 0 row) 0 shape

/-- `isSettled` from `state.ts`. -/
def isSettled (currentTetromino : Tetromino) (grid : List (List Nat)) : Bool :=
  let yDownByOne := currentTetromino.y + 1
  isCollision currentTetromino.x yDownByOne currentTetromino.shape grid
  || isOutOfBounds currentTetromino.x yDownByOne currentTetromino.shape

/-- `isGameEnd` from `state.ts`.  `shape[0].some(cell => cell === 1)` is the
first row of the shape matrix (`headD []`; the source would throw on an empty
shape). -/
def isGameEnd (s : State) : Bool :=
  isSettled s.currentTetromino s.grid
  && decide (s.currentTetromino.y < 0)
  && (s.currentTetromino.shape.headD []).any (fun cell => cell == 1)

/-- `moveTetromino` from `state.ts`. -/
def moveTetromino (s : State) (xOffset yOffset : Int) : State :=
  let movedTetromino :=
    { s.currentTetromino with
      x := s.currentTetromino.x + xOffset
      y := s.currentTetromino.y + yOffset }
  if isCollision movedTetromino.x movedTetromino.y movedTetromino.shape s.grid
      || isOutOfBounds movedTetromino.x movedTetromino.y movedTetromino.shape then
    s
  else
    { s with currentTetromino := movedTetromino }

/-- `rotateMatrix` from `state.ts`: `matrix[0].map((col, i) => matrix.map(row
=> row[i]))` followed by reversing every transposed row.  The outer map over
`matrix[0]` uses only the index, hence `List.range` over its length. -/
def rotateMatrix (matrix : List (List Nat)) : List (List Nat) :=
  let transposedMatrix :=
    (List.range (matrix.headD []).length).map
      (fun i => matrix.map (fun row => row.getD i 0))
  transposedMatrix.map List.reverse

/-- The rotated candidate built at the top of `rotateTetromino`. -/
def rotatedOf (t : Tetromino) : Tetromino :=
  { t with
    orientation := (t.orientation + 1) % 4
    shape := rotateMatrix t.shape }

/-- The legality test `!isCollision(...) && !isOutOfBounds(...)` applied to a
piece at its own anchor, as written in `rotateTetromino` / `attemptWallKick`. -/
def validPlacement (t : Tetromino) (grid : List (List Nat)) : Bool :=
  !(isCollision t.x t.y t.shape grid) && !(isOutOfBounds t.x t.y t.shape)

/-- The kick candidate `{...rotated, x: x + test[0], y: y + test[1]}` from
`attemptWallKick`.  `test.getD` mirrors `test[0]` / `test[1]`; each test in
the table has length 2 except the malformed `O` entry `[]`, where the JS
indexing gives `undefined` and NaN arithmetic (see the `O`-specific theorems). -/
def kickAdjusted (rotatedTetromino : Tetromino) (test : List Int) : Tetromino :=
  { rotatedTetromino with
    x := rotatedTetromino.x + test.getD 0 0
    y := rotatedTetromino.y + test.getD 1 0 }

/-- `attemptWallKick` from `state.ts`.  `WallKickData[key][orientation]` is
embedded with a `getD` default for a missing orientation row (the JS lookup
would throw there). -/
def attemptWallKick (currentTetromino rotatedTetromino : Tetromino)
    (grid : List (List Nat)) : Option Tetromino :=
  let wallKickTests :=
    (WallKickData currentTetromino.key).getD currentTetromino.orientation []
  match wallKickTests.find?
      (fun test => validPlacement (kickAdjusted rotatedTetromino test) grid) with
  | some test => some (kickAdjusted rotatedTetromino test)
  | none => none

/-- `rotateTetromino` from `state.ts`. -/
def rotateTetromino (s : State) : State :=
  let rotatedTetromino := rotatedOf s.currentTetromino
  if validPlacement rotatedTetromino s.grid then
    { s with currentTetromino := rotatedTetromino }
  else
    match attemptWallKick s.currentTetromino rotatedTetromino s.grid with
    | some wallKickedTetromino => { s with currentTetromino := wallKickedTetromino }
    | none => s

/-- The row-completeness test `row.every(cell => cell === 1)` from
`clearCompletedRows`. -/
def isFullRow (row : List Nat) : Bool := row.all (fun cell => cell == 1)

/-- `clearCompletedRows` from `state.ts`. -/
def clearCompletedRows (grid : List (List Nat)) : List (List Nat) × Nat :=
  let fullRows := grid.filter isFullRow
  if fullRows.length = 0 then
    (grid, 0)
  else
    (List.replicate fullRows.length
        (List.replicate Constants.GRID_WIDTH.toNat 0)
      ++ grid.filter (fun row => !(isFullRow row)),
     fullRows.length)

/-- `updateState` from `state.ts`; keys arrive as the JS key-code strings. -/
def updateState (s : State) (key : String) : State :=
  if key = "ArrowLeft" then moveTetromino s (-1) 0
  else if key = "ArrowRight" then moveTetromino s 1 0
  else if key = "ArrowDown" then moveTetromino s 0 1
  else if key = "ArrowUp" then rotateTetromino s
  else s

/-- The recursive descent inside `dropTetromino`, with explicit fuel: the
source recursion is not structurally decreasing (it would spin forever on a
shape with no occupied cell), so the fuel makes the embedding total. -/
def dropOneStepRecursive : Nat → State → State
  | 0, currentState => currentState
  | fuel + 1, currentState =>
    if isSettled currentState.currentTetromino currentState.grid then
      currentState
    else
      dropOneStepRecursive fuel (moveTetromino currentState 0 1)

/-- `dropTetromino` from `state.ts`.  The fuel `GRID_HEIGHT - y + 1` is shown
sufficient in the termination theorem: each unsettled step moves the piece
down one row and an occupied cell keeps `y` below the grid floor. -/
def dropTetromino (s : State) : State :=
  dropOneStepRecursive
    ((Constants.GRID_HEIGHT - s.currentTetromino.y).toNat + 1) s

/-- `resetPosition` from `state.ts`. -/
def resetPosition (tetromino : Tetromino) : Tetromino :=
  { tetromino with
    orientation := INITIAL_ORIENTATION
    shape := TetrominoShapes tetromino.key
    x := Constants.GRID_WIDTH / 2 -
      (((TetrominoShapes tetromino.key).headD []).length / 2 : Nat)
    y := -2 }

/-- `holdState` from `state.ts`. -/
def holdState (s : State) (tickRng : ℚ) : State :=
  match s.holdTetromino with
  | none =>
    { s with
      currentTetromino := s.nextTetromino
      nextTetromino := getRandomTetromino tickRng
      holdTetromino := some (resetPosition s.currentTetromino)
      gameRestart := false }
  | some held =>
    { s with
      currentTetromino := resetPosition held
      holdTetromino := some (resetPosition s.currentTetromino)
      gameRestart := false }

/-- `updateGrid` from `state.ts`. -/
def updateGrid (grid : List (List Nat)) (currentTetromino : Tetromino) :
    List (List Nat) :=
  let xPivot := currentTetromino.x
  let yPivot := currentTetromino.y
  let yLength : Int := currentTetromino.shape.length
  let xLength : Int := (currentTetromino.shape.headD []).length
  mapIdx (fun yIndex row =>
    mapIdx (fun xIndex cell =>
      let yI : Int := yIndex
      let xI : Int := xIndex
      if yI ≥ yPivot ∧ yI < yPivot + yLength ∧ xI ≥ xPivot ∧ xI < xPivot + xLength then
        cell + (currentTetromino.shape.getD (yI - yPivot).toNat []).getD
          (xI - xPivot).toNat 0
      else cell) 0 row) 0 grid

/-- `tick` from `state.ts`. -/
def tick (s : State) (rng : ℚ) : State :=
  if isGameEnd s then
    { s with gameEnd := true }
  else if isSettled s.currentTetromino s.grid then
    let updatedGrid := updateGrid s.grid s.currentTetromino
    let cleared := clearCompletedRows updatedGrid
    let newScore := s.score + cleared.2 * 100
    { s with
      grid := cleared.1
      currentTetromino := s.nextTetromino
      nextTetromino := getRandomTetromino rng
      level := newScore / 1000
      score := newScore
      highScore := if newScore > s.highScore then newScore else s.highScore }
  else if s.gamePause || s.gameEnd then s
  else { moveTetromino s 0 1 with gameRestart := false }

/-- `hardDrop` from `state.ts`. -/
def hardDrop (s : State) (rng : ℚ) : State := tick (dropTetromino s) rng

/-- `INITIAL_STATE` from `util.ts`, parameterised by the two freshly drawn
pieces (in the source they come from the process-global `Math.random()` seed). -/
def INITIAL_STATE_of (cur next : Tetromino) : State :=
  { gameEnd := false
    gamePause := false
    gameRestart := false
    grid := List.replicate Constants.GRID_HEIGHT.toNat
      (List.replicate Constants.GRID_WIDTH.toNat 0)
    currentTetromino := cur
    nextTetromino := next
    holdTetromino := none
    level := 0
    score := 0
    highScore := 0 }

/-- The ordered event stream fed to `handleInput` in `main.ts`: a tick RNG
draw, one of the four movement key codes, a click on the pause or restart
button, or an (RNG, key) pair for hard drop / hold. -/
inductive GameInput where
  | tickRng (rng : ℚ)
  | keyMove (key : String)
  | pauseClick
  | restartClick
  | dropPair (rng : ℚ)
  | holdPair (rng : ℚ)

/-- `handleInput` from `main.ts`, with the classifier predicates
(`isMovement`, `isPause`, `isRestart`, `isHardDrop`, `isHold`) resolved
against the tagged event: movement, hard-drop and hold are gated on
`!gameEnd && !gamePause`, clicks always apply, and a gated-out or tick event
falls to the default branch `(gameEnd || gamePause) ? s : tick(s, rng)`. -/
def handleInput (init : Tetromino × Tetromino) (s : State) :
    GameInput → State
  | .keyMove key =>
    if !s.gameEnd && !s.gamePause then
      { updateState s key with gameRestart := false }
    else s
  | .pauseClick => { s with gamePause := !s.gamePause, gameRestart := false }
  | .restartClick =>
    { INITIAL_STATE_of init.1 init.2 with
      gameRestart := true
      highScore := s.highScore }
  | .dropPair rng =>
    if !s.gameEnd && !s.gamePause then hardDrop s rng else s
  | .holdPair rng =>
    if !s.gameEnd && !s.gamePause then
      { holdState s rng with gameRestart := false }
    else s
  | .tickRng rng =>
    if !s.gameEnd && !s.gamePause then tick s rng else s

/-- States reachable from the initial state by the event stream. -/
inductive Reachable (init : Tetromino × Tetromino) : State → Prop where
  | start : Reachable init (INITIAL_STATE_of init.1 init.2)
  | step (s : State) (e : GameInput) :
      Reachable init s → Reachable init (handleInput init s e)

/-! ## Concrete fixtures used by witnesses and counterexamples -/

/-- A 20×10 grid of zeroes. -/
def emptyGrid : List (List Nat) := List.replicate 20 (List.replicate 10 0)

/-- A 20×10 grid whose top row is full. -/
def topRowFullGrid : List (List Nat) :=
  List.replicate 10 1 :: List.replicate 19 (List.replicate 10 0)

/-- A 20×10 grid whose second row (grid row 1) is full. -/
def row1FullGrid : List (List Nat) :=
  List.replicate 10 0 :: List.replicate 10 1 ::
    List.replicate 18 (List.replicate 10 0)

/-- A 20×10 grid of ones. -/
def fullGrid : List (List Nat) := List.replicate 20 (List.replicate 10 1)

/-- A freshly spawned tetromino of the given kind at an explicit anchor. -/
def mkT (key : String) (x y : Int) : Tetromino :=
  { key := key, orientation := 0, shape := TetrominoShapes key,
    colour := TetrominoColours key, x := x, y := y }

/-- A running state with the given grid and pieces and zeroed counters. -/
def mkState (grid : List (List Nat)) (cur next : Tetromino) : State :=
  { gameEnd := false, gamePause := false, gameRestart := false, grid := grid,
    currentTetromino := cur, nextTetromino := next, holdTetromino := none,
    level := 0, score := 0, highScore := 0 }

/-! ## C7: clearCompletedRows -/

/-- `filter` of the negated predicate returns the whole list when the
predicate holds nowhere. -/
theorem filter_not_eq_self_of_none {l : List (List Nat)}
    (h : ∀ row ∈ l, ¬ isFullRow row = true) :
    l.filter (fun row => !(isFullRow row)) = l := by
  apply List.filter_eq_self.mpr
  intro row hrow
  simp [h row hrow]

/-- C7: `clearCompletedRows` returns as count the number of full rows
(`row.every(cell => cell === 1)`), and as grid that many zeroed rows of width
`GRID_WIDTH` prepended to the non-full rows in their original order; with
zero full rows this is the original grid and count 0. -/
theorem clearCompletedRows_spec (grid : List (List Nat)) :
    (clearCompletedRows grid).2 = (grid.filter isFullRow).length ∧
    (clearCompletedRows grid).1 =
      List.replicate (grid.filter isFullRow).length
          (List.replicate Constants.GRID_WIDTH.toNat 0)
        ++ grid.filter (fun row => !(isFullRow row)) := by
  unfold clearCompletedRows
  by_cases h : (grid.filter isFullRow).length = 0
  · have hnil : grid.filter isFullRow = [] := List.length_eq_zero.mp h
    have hnone : ∀ row ∈ grid, ¬ isFullRow row = true :=
      List.filter_eq_nil_iff.mp hnil
    simp [h, hnil, filter_not_eq_self_of_none hnone]
  · simp [h]

/-! ## C3: two consecutive holds -/

/-- `resetPosition` is idempotent: it only depends on the piece kind, which it
preserves. -/
theorem resetPosition_idem (t : Tetromino) :
    resetPosition (resetPosition t) = resetPosition t := by
  simp [resetPosition]

/-- C3 (amended): two consecutive holds leave as active piece the spawn-reset
form of the original active piece — same kind and colour, orientation 0, base
shape, spawn anchor — not the original piece value itself. -/
theorem holdState_double_reset (s : State) (r1 r2 : ℚ) :
    (holdState (holdState s r1) r2).currentTetromino =
      resetPosition s.currentTetromino := by
  cases h : s.holdTetromino <;>
    simp [holdState, h, resetPosition_idem]

/-- C3 counterexample: for an O piece that has fallen to `y = 5`, two holds
return it at the spawn anchor `y = -2`, not at its pre-hold position. -/
theorem holdState_double_not_involution :
    (holdState (holdState (mkState emptyGrid (mkT "O" 4 5) (mkT "T" 3 (-2))) 0)
        0).currentTetromino ≠
      (mkState emptyGrid (mkT "O" 4 5) (mkT "T" 3 (-2))).currentTetromino := by
  decide

/-! ## C4: the O wall-kick entry -/

/-- C4 counterexample: the `O` kick row for orientation 0 is `[[]]` — a
one-element list holding a single empty offset pair — not an empty list of
candidate offsets. -/
theorem wallKickData_O_row_not_empty :
    (WallKickData "O").getD 0 [] ≠ ([] : List (List Int)) ∧
      (WallKickData "O").getD 0 [] = [[]] := by
  decide

/-- C4 (amended): the `O` entry of the kick table is the literal `[[[]]]`,
and an O piece in a legal placement always rotates in place (its rotated
shape is the same matrix at the same anchor), so the kick data is never
consulted for it. -/
theorem rotate_O_in_place (s : State)
    (hshape : s.currentTetromino.shape = TetrominoShapes "O")
    (hlegal : validPlacement s.currentTetromino s.grid = true) :
    WallKickData "O" = [[[]]] ∧
      rotateTetromino s = { s with currentTetromino := rotatedOf s.currentTetromino } := by
  refine ⟨rfl, ?_⟩
  have hrot : rotateMatrix s.currentTetromino.shape = s.currentTetromino.shape := by
    rw [hshape]; rfl
  have hval : validPlacement (rotatedOf s.currentTetromino) s.grid = true := by
    simpa [validPlacement, rotatedOf, hrot] using hlegal
  simp [rotateTetromino, hval]

/-- Witness for C4 at a concrete legally-placed O piece. -/
theorem rotate_O_in_place_witness :
    WallKickData "O" = [[[]]] ∧
      rotateTetromino (mkState emptyGrid (mkT "O" 4 5) (mkT "T" 3 (-2))) =
        { mkState emptyGrid (mkT "O" 4 5) (mkT "T" 3 (-2)) with
          currentTetromino :=
            rotatedOf (mkState emptyGrid (mkT "O" 4 5) (mkT "T" 3 (-2))).currentTetromino } :=
  rotate_O_in_place _ rfl (by decide)

/-! ## C10: rotateMatrix to the fourth power -/

/-- A matrix is square when every row is as long as the list of rows. -/
def IsSquareMat (m : List (List Nat)) : Prop :=
  ∀ row ∈ m, row.length = m.length

/-- The `(i, j)` entry of a list-of-lists, with out-of-range defaults. -/
def entryAt (m : List (List Nat)) (i j : Nat) : Nat :=
  (m.getD i []).getD j 0

theorem head_length_of_square {m : List (List Nat)} (h : IsSquareMat m) :
    (m.headD []).length = m.length := by
  cases m with
  | nil => rfl
  | cons a t => exact h a (List.mem_cons_self a t)

theorem rotateMatrix_length (m : List (List Nat)) :
    (rotateMatrix m).length = (m.headD []).length := by
  simp [rotateMatrix]

theorem rotateMatrix_row_length {m : List (List Nat)} {row : List Nat}
    (h : row ∈ rotateMatrix m) : row.length = m.length := by
  simp only [rotateMatrix, List.mem_map, List.mem_range] at h
  obtain ⟨r, ⟨i, _, rfl⟩, rfl⟩ := h
  simp

theorem rotateMatrix_square {m : List (List Nat)} (h : IsSquareMat m) :
    IsSquareMat (rotateMatrix m) := by
  intro row hrow
  rw [rotateMatrix_row_length hrow, rotateMatrix_length, head_length_of_square h]

theorem rotateMatrix_length_of_square {m : List (List Nat)} (h : IsSquareMat m) :
    (rotateMatrix m).length = m.length := by
  rw [rotateMatrix_length, head_length_of_square h]

theorem rotateMatrix_entry {m : List (List Nat)} (h : IsSquareMat m)
    {i j : Nat} (hi : i < m.length) (hj : j < m.length) :
    entryAt (rotateMatrix m) i j = entryAt m (m.length - 1 - j) i := by
  have hk : (m.headD []).length = m.length := head_length_of_square h
  have hi' : i < (rotateMatrix m).length := by
    rw [rotateMatrix_length, hk]; exact hi
  have hrow : (rotateMatrix m).getD i [] =
      (m.map (fun row => row.getD i 0)).reverse := by
    rw [List.getD_eq_getElem _ _ hi']
    simp [rotateMatrix]
  have hlen : (m.map (fun row => row.getD i 0)).length = m.length := by simp
  have hj' : j < ((m.map (fun row => row.getD i 0)).reverse).length := by
    simp [hj]
  unfold entryAt
  rw [hrow, List.getD_eq_getElem _ _ hj', List.getElem_reverse]
  have hidx : (m.map (fun row => row.getD i 0)).length - 1 - j < m.length := by
    omega
  rw [List.getElem_map]
  congr 1
  · rw [List.getD_eq_getElem m [] (by omega)]
    congr 1
    omega

theorem rotateMatrix_entry_two {m : List (List Nat)} (h : IsSquareMat m)
    {i j : Nat} (hi : i < m.length) (hj : j < m.length) :
    entryAt (rotateMatrix (rotateMatrix m)) i j =
      entryAt m (m.length - 1 - i) (m.length - 1 - j) := by
  have h1 := rotateMatrix_square h
  have hl1 := rotateMatrix_length_of_square h
  have hi1 : i < (rotateMatrix m).length := by omega
  have hj1 : j < (rotateMatrix m).length := by omega
  rw [rotateMatrix_entry h1 hi1 hj1]
  have hj2 : (rotateMatrix m).length - 1 - j < m.length := by omega
  rw [rotateMatrix_entry h hj2 hi]
  congr 2
  omega

theorem getD_row_length_of_square {m : List (List Nat)} (h : IsSquareMat m)
    {i : Nat} (hi : i < m.length) : (m.getD i []).length = m.length := by
  rw [List.getD_eq_getElem m [] hi]
  exact h _ (List.getElem_mem hi)

theorem list_of_lists_ext {a b : List (List Nat)} (hl : a.length = b.length)
    (hrow : ∀ i, i < a.length → (a.getD i []).length = (b.getD i []).length)
    (he : ∀ i j, i < a.length → j < (a.getD i []).length →
      entryAt a i j = entryAt b i j) : a = b := by
  apply List.ext_getElem hl
  intro i h1 h2
  apply List.ext_getElem
  · have := hrow i h1
    rwa [List.getD_eq_getElem a [] h1, List.getD_eq_getElem b [] h2] at this
  · intro j hj1 hj2
    have hja : j < (a.getD i []).length := by
      rw [List.getD_eq_getElem a [] h1]; exact hj1
    have := he i j h1 hja
    unfold entryAt at this
    rwa [List.getD_eq_getElem a [] h1, List.getD_eq_getElem b [] h2,
      List.getD_eq_getElem _ _ hj1, List.getD_eq_getElem _ _ hj2] at this

/-- C10: on a square matrix, four clockwise rotations are the identity. -/
theorem rotateMatrix_fourth_power (m : List (List Nat)) (h : IsSquareMat m) :
    rotateMatrix (rotateMatrix (rotateMatrix (rotateMatrix m))) = m := by
  have h2 : IsSquareMat (rotateMatrix (rotateMatrix m)) :=
    rotateMatrix_square (rotateMatrix_square h)
  have hl2 : (rotateMatrix (rotateMatrix m)).length = m.length := by
    rw [rotateMatrix_length_of_square (rotateMatrix_square h),
      rotateMatrix_length_of_square h]
  have hl4 : (rotateMatrix (rotateMatrix (rotateMatrix (rotateMatrix m)))).length
      = m.length := by
    rw [rotateMatrix_length_of_square (rotateMatrix_square h2),
      rotateMatrix_length_of_square h2, hl2]
  have h4 : IsSquareMat (rotateMatrix (rotateMatrix (rotateMatrix (rotateMatrix m)))) :=
    rotateMatrix_square (rotateMatrix_square h2)
  apply list_of_lists_ext hl4
  · intro i hi
    rw [getD_row_length_of_square h4 hi, hl4,
      getD_row_length_of_square h (by omega)]
  · intro i j hi hj
    rw [hl4] at hi
    rw [getD_row_length_of_square h4 (by omega), hl4] at hj
    have e2 : entryAt (rotateMatrix (rotateMatrix (rotateMatrix (rotateMatrix m)))) i j
        = entryAt (rotateMatrix (rotateMatrix m))
            ((rotateMatrix (rotateMatrix m)).length - 1 - i)
            ((rotateMatrix (rotateMatrix m)).length - 1 - j) :=
      rotateMatrix_entry_two h2 (by omega) (by omega)
    rw [e2, hl2]
    have e1 : entryAt (rotateMatrix (rotateMatrix m))
        (m.length - 1 - i) (m.length - 1 - j)
        = entryAt m (m.length - 1 - (m.length - 1 - i))
            (m.length - 1 - (m.length - 1 - j)) :=
      rotateMatrix_entry_two h (by omega) (by omega)
    have hii : m.length - 1 - (m.length - 1 - i) = i := by omega
    have hjj : m.length - 1 - (m.length - 1 - j) = j := by omega
    rw [e1, hii, hjj]

/-- Witness for C10 at a concrete 3×3 matrix. -/
theorem rotateMatrix_fourth_power_witness :
    rotateMatrix (rotateMatrix (rotateMatrix (rotateMatrix
      [[1, 2, 3], [4, 5, 6], [7, 8, 9]]))) = [[1, 2, 3], [4, 5, 6], [7, 8, 9]] :=
  rotateMatrix_fourth_power [[1, 2, 3], [4, 5, 6], [7, 8, 9]]
    (by unfold IsSquareMat; decide)

/-! ## C1: the game-end condition checked by tick -/

/-- Modelled from the claim's wording: some occupied cell of the piece's shape
lies at a grid row `< 0` (the piece overlaps the top boundary). -/
def pieceOverlapsTop (t : Tetromino) : Bool :=
  anyIdx (fun yBlock row =>
    row.any (fun cell => cell == 1) && decide (t.y + yBlock < 0)) 0 t.shape

/-- `moveTetromino` only ever rewrites the current piece. -/
theorem moveTetromino_eq (s : State) (dx dy : Int) :
    ∃ t, moveTetromino s dx dy = { s with currentTetromino := t } := by
  simp only [moveTetromino]
  split
  · exact ⟨s.currentTetromino, rfl⟩
  · exact ⟨_, rfl⟩

/-- The settled state with an I piece whose occupied row sits at grid row -1:
the top grid row is full, so moving down by one collides. -/
def iPieceAboveTop : State :=
  mkState topRowFullGrid (mkT "I" 3 (-2)) (mkT "O" 4 (-2))

/-- C1 counterexample: the I piece of `iPieceAboveTop` is settled and
overlaps the top boundary (its occupied cells are at grid row -1), yet `tick`
does not transition to the ended state — `isGameEnd` tests `shape[0]`, the
first row of the bounding box, which is empty for the I shape. -/
theorem tick_end_condition_counterexample :
    isSettled iPieceAboveTop.currentTetromino iPieceAboveTop.grid = true ∧
    pieceOverlapsTop iPieceAboveTop.currentTetromino = true ∧
    tick iPieceAboveTop 0 ≠ { iPieceAboveTop with gameEnd := true } := by
  refine ⟨by decide, by decide, ?_⟩
  intro hEq
  have hg : (tick iPieceAboveTop 0).gameEnd = false := rfl
  rw [hEq] at hg
  simp at hg

/-- `isGameEnd` unfolded into its three conjuncts. -/
theorem isGameEnd_iff (s : State) :
    isGameEnd s = true ↔
      (isSettled s.currentTetromino s.grid = true ∧
        s.currentTetromino.y < 0 ∧
        (s.currentTetromino.shape.headD []).any (fun cell => cell == 1) = true) := by
  simp [isGameEnd, and_assoc]

/-- C1 (amended): for a state not already ended, `tick` transitions to the
ended state — all fields kept, `gameEnd` set — exactly when the piece is
settled, its anchor row is negative, and the FIRST ROW of its shape matrix
contains an occupied cell. -/
theorem tick_end_condition (s : State) (rng : ℚ) (h : s.gameEnd = false) :
    tick s rng = { s with gameEnd := true } ↔
      (isSettled s.currentTetromino s.grid = true ∧
        s.currentTetromino.y < 0 ∧
        (s.currentTetromino.shape.headD []).any (fun cell => cell == 1) = true) := by
  constructor
  · intro hEq
    by_cases hGE : isGameEnd s = true
    · exact (isGameEnd_iff s).mp hGE
    · exfalso
      have hg : (tick s rng).gameEnd = false := by
        unfold tick
        rw [if_neg (by simp [hGE])]
        by_cases hS : isSettled s.currentTetromino s.grid = true
        · simp [hS, h]
        · obtain ⟨t, ht⟩ := moveTetromino_eq s 0 1
          by_cases hP : s.gamePause = true
          · simp [hS, hP, h]
          · simp [hS, hP, h, ht]
      rw [hEq] at hg
      simp at hg
  · intro ⟨h1, h2, h3⟩
    have hGE : isGameEnd s = true := (isGameEnd_iff s).mpr ⟨h1, h2, h3⟩
    unfold tick
    rw [if_pos (by simp [hGE])]

/-- Witness for C1: an S piece (occupied first shape row) settled at
`y = -1` on a grid whose second row is full makes `tick` end the game. -/
theorem tick_end_condition_witness :
    tick (mkState row1FullGrid (mkT "S" 0 (-1)) (mkT "O" 4 (-2))) 0 =
      { mkState row1FullGrid (mkT "S" 0 (-1)) (mkT "O" 4 (-2)) with
        gameEnd := true } :=
  (tick_end_condition (mkState row1FullGrid (mkT "S" 0 (-1)) (mkT "O" 4 (-2))) 0
      rfl).mpr ⟨by decide, by decide, by decide⟩

/-! ## C6: the merge branch of tick -/

/-- C6: on a settled, not-yet-ending state, `tick` merges the piece, clears
full rows, adds 100 per cleared row, recomputes `level = ⌊score / 1000⌋` and
`highScore = max(highScore, score)`, promotes the queued piece and draws a
fresh next piece from `rng`. -/
theorem tick_merge (s : State) (rng : ℚ)
    (h1 : isGameEnd s = false)
    (h2 : isSettled s.currentTetromino s.grid = true) :
    tick s rng =
      { s with
        grid := (clearCompletedRows (updateGrid s.grid s.currentTetromino)).1
        currentTetromino := s.nextTetromino
        nextTetromino := getRandomTetromino rng
        score := s.score +
          100 * (clearCompletedRows (updateGrid s.grid s.currentTetromino)).2
        level := (s.score +
          100 * (clearCompletedRows (updateGrid s.grid s.currentTetromino)).2) / 1000
        highScore := max s.highScore (s.score +
          100 * (clearCompletedRows (updateGrid s.grid s.currentTetromino)).2) } := by
  unfold tick
  rw [if_neg (by simp [h1]), if_pos (by simp [h2])]
  simp only [State.mk.injEq]
  and_intros <;> first | trivial | omega | (split <;> omega)

/-- Witness for C6: an O piece settled on the floor of an empty grid. -/
theorem tick_merge_witness :
    tick (mkState emptyGrid (mkT "O" 4 18) (mkT "T" 3 (-2))) 0 =
      { mkState emptyGrid (mkT "O" 4 18) (mkT "T" 3 (-2)) with
        grid := (clearCompletedRows (updateGrid
          (mkState emptyGrid (mkT "O" 4 18) (mkT "T" 3 (-2))).grid
          (mkState emptyGrid (mkT "O" 4 18) (mkT "T" 3 (-2))).currentTetromino)).1
        currentTetromino := (mkState emptyGrid (mkT "O" 4 18) (mkT "T" 3 (-2))).nextTetromino
        nextTetromino := getRandomTetromino 0
        score := (mkState emptyGrid (mkT "O" 4 18) (mkT "T" 3 (-2))).score +
          100 * (clearCompletedRows (updateGrid
            (mkState emptyGrid (mkT "O" 4 18) (mkT "T" 3 (-2))).grid
            (mkState emptyGrid (mkT "O" 4 18) (mkT "T" 3 (-2))).currentTetromino)).2
        level := ((mkState emptyGrid (mkT "O" 4 18) (mkT "T" 3 (-2))).score +
          100 * (clearCompletedRows (updateGrid
            (mkState emptyGrid (mkT "O" 4 18) (mkT "T" 3 (-2))).grid
            (mkState emptyGrid (mkT "O" 4 18) (mkT "T" 3 (-2))).currentTetromino)).2) / 1000
        highScore := max (mkState emptyGrid (mkT "O" 4 18) (mkT "T" 3 (-2))).highScore
          ((mkState emptyGrid (mkT "O" 4 18) (mkT "T" 3 (-2))).score +
            100 * (clearCompletedRows (updateGrid
              (mkState emptyGrid (mkT "O" 4 18) (mkT "T" 3 (-2))).grid
              (mkState emptyGrid (mkT "O" 4 18) (mkT "T" 3 (-2))).currentTetromino)).2) } :=
  tick_merge (mkState emptyGrid (mkT "O" 4 18) (mkT "T" 3 (-2))) 0
    (by decide) (by decide)

/-! ## C5: rotation with wall-kick resolution -/

/-- The kick row `WallKickData[key][orientation]` consulted for a state's
current piece. -/
def kickTests (s : State) : List (List Int) :=
  (WallKickData s.currentTetromino.key).getD s.currentTetromino.orientation []

/-- `find?` returns the element at the first index whose test succeeds. -/
theorem find_first {α} (p : α → Bool) (d : α) :
    ∀ (l : List α) (k : Nat), k < l.length →
      (∀ j, j < k → p (l.getD j d) = false) →
      p (l.getD k d) = true →
      l.find? p = some (l.getD k d)
  | [], k, hk, _, _ => by simp at hk
  | a :: t, 0, _, _, hit => by
    simp only [List.getD_cons_zero] at hit ⊢
    simp [List.find?_cons, hit]
  | a :: t, k + 1, hk, hbefore, hit => by
    have ha : p a = false := by
      have := hbefore 0 (Nat.succ_pos k)
      simpa using this
    simp only [List.getD_cons_succ] at hit ⊢
    rw [List.find?_cons, ha]
    exact find_first p d t k (by simpa using hk)
      (fun j hj => by simpa using hbefore (j + 1) (by omega)) hit

/-- C5: `rotateTetromino` advances orientation by 1 mod 4 and rotates the
shape clockwise; a legal in-place rotation is taken as is (the kick table
plays no part in the result); otherwise the kick offsets of the row keyed by
(shape kind, pre-rotation orientation) are tried in listed order and the
first legal one is applied; if all fail, the state is returned unchanged.
The two kick cases assume the consulted row exists and its tests are
well-formed offset pairs, which holds for every key except the malformed `O`
entry (see the `O`-specific theorems). -/
theorem rotateTetromino_spec (s : State) :
    ((rotatedOf s.currentTetromino).orientation =
        (s.currentTetromino.orientation + 1) % 4 ∧
      (rotatedOf s.currentTetromino).shape = rotateMatrix s.currentTetromino.shape) ∧
    (validPlacement (rotatedOf s.currentTetromino) s.grid = true →
      rotateTetromino s = { s with currentTetromino := rotatedOf s.currentTetromino }) ∧
    (validPlacement (rotatedOf s.currentTetromino) s.grid = false →
      s.currentTetromino.orientation < (WallKickData s.currentTetromino.key).length →
      (∀ test ∈ kickTests s, test.length = 2) →
      ∀ k, k < (kickTests s).length →
        (∀ j, j < k →
          validPlacement
            (kickAdjusted (rotatedOf s.currentTetromino) ((kickTests s).getD j []))
            s.grid = false) →
        validPlacement
          (kickAdjusted (rotatedOf s.currentTetromino) ((kickTests s).getD k []))
          s.grid = true →
        rotateTetromino s =
          { s with currentTetromino :=
              kickAdjusted (rotatedOf s.currentTetromino) ((kickTests s).getD k []) }) ∧
    (validPlacement (rotatedOf s.currentTetromino) s.grid = false →
      s.currentTetromino.orientation < (WallKickData s.currentTetromino.key).length →
      (∀ test ∈ kickTests s, test.length = 2) →
      (∀ test ∈ kickTests s,
        validPlacement (kickAdjusted (rotatedOf s.currentTetromino) test) s.grid
          = false) →
      rotateTetromino s = s) := by
  refine ⟨⟨rfl, rfl⟩, ?_, ?_, ?_⟩
  · intro hv
    simp [rotateTetromino, hv]
  · intro hbad _ _ k hk hbefore hit
    have hfind :
        (kickTests s).find?
            (fun test =>
              validPlacement (kickAdjusted (rotatedOf s.currentTetromino) test) s.grid)
          = some ((kickTests s).getD k []) :=
      find_first _ [] (kickTests s) k hk hbefore hit
    simp only [rotateTetromino, hbad, Bool.false_eq_true, if_false]
    simp only [attemptWallKick]
    rw [show (WallKickData s.currentTetromino.key).getD
        s.currentTetromino.orientation [] = kickTests s from rfl]
    rw [hfind]
  · intro hbad _ _ hall
    have hfind :
        (kickTests s).find?
            (fun test =>
              validPlacement (kickAdjusted (rotatedOf s.currentTetromino) test) s.grid)
          = none :=
      List.find?_eq_none.mpr (fun t ht => by simp [hall t ht])
    simp only [rotateTetromino, hbad, Bool.false_eq_true, if_false]
    simp only [attemptWallKick]
    rw [show (WallKickData s.currentTetromino.key).getD
        s.currentTetromino.orientation [] = kickTests s from rfl]
    rw [hfind]

/-- Witness for C5: a legal in-place rotation (T piece mid-board), a kick
applied at index 1 after index 0 fails (T piece at the floor), and a fully
rejected rotation (full grid). -/
theorem rotateTetromino_spec_witness :
    rotateTetromino (mkState emptyGrid (mkT "T" 3 5) (mkT "O" 4 (-2))) =
      { mkState emptyGrid (mkT "T" 3 5) (mkT "O" 4 (-2)) with
        currentTetromino :=
          rotatedOf (mkState emptyGrid (mkT "T" 3 5) (mkT "O" 4 (-2))).currentTetromino } ∧
    rotateTetromino (mkState emptyGrid (mkT "T" 3 18) (mkT "O" 4 (-2))) =
      { mkState emptyGrid (mkT "T" 3 18) (mkT "O" 4 (-2)) with
        currentTetromino :=
          kickAdjusted
            (rotatedOf (mkState emptyGrid (mkT "T" 3 18) (mkT "O" 4 (-2))).currentTetromino)
            ((kickTests (mkState emptyGrid (mkT "T" 3 18) (mkT "O" 4 (-2)))).getD 1 []) } ∧
    rotateTetromino (mkState fullGrid (mkT "T" 3 5) (mkT "O" 4 (-2))) =
      mkState fullGrid (mkT "T" 3 5) (mkT "O" 4 (-2)) :=
  ⟨(rotateTetromino_spec (mkState emptyGrid (mkT "T" 3 5) (mkT "O" 4 (-2)))).2.1
      (by decide),
   (rotateTetromino_spec (mkState emptyGrid (mkT "T" 3 18) (mkT "O" 4 (-2)))).2.2.1
      (by decide) (by decide) (by decide) 1 (by decide)
      (fun j hj => by
        rw [Nat.lt_one_iff] at hj
        subst hj
        decide)
      (by decide),
   (rotateTetromino_spec (mkState fullGrid (mkT "T" 3 5) (mkT "O" 4 (-2)))).2.2.2
      (by decide) (by decide) (by decide) (by decide)⟩

/-! ## C8: dropTetromino terminates settled -/

/-- The shape has at least one occupied cell. -/
def hasOccupiedCell (shape : List (List Nat)) : Bool :=
  shape.any (fun row => row.any (fun cell => cell == 1))

/-- If an indexed `some` is false, it is false at every index. -/
theorem anyIdx_false_at {α} (p : Nat → α → Bool) :
    ∀ (l : List α) (i : Nat), anyIdx p i l = false →
      ∀ k (hk : k < l.length), p (i + k) (l.get ⟨k, hk⟩) = false := by
  intro l
  induction l with
  | nil => intro i _ k hk; simp at hk
  | cons a t ih =>
    intro i h k hk
    simp only [anyIdx, Bool.or_eq_false_iff] at h
    cases k with
    | zero => simpa using h.1
    | succ k2 =>
      have := ih (i + 1) h.2 k2 (by simpa using hk)
      have harith : i + 1 + k2 = i + (k2 + 1) := by omega
      rw [harith] at this
      simpa using this

/-- A true `any` is true at some index. -/
theorem any_true_at {α} (q : α → Bool) (l : List α) (h : l.any q = true) :
    ∃ k, ∃ hk : k < l.length, q (l.get ⟨k, hk⟩) = true := by
  rw [List.any_eq_true] at h
  obtain ⟨x, hx, hqx⟩ := h
  obtain ⟨⟨k, hk⟩, rfl⟩ := List.mem_iff_get.mp hx
  exact ⟨k, hk, hqx⟩

/-- A piece with an occupied cell that is not out of bounds has its anchor
row above the grid floor. -/
theorem y_lt_of_not_oob {x y : Int} {shape : List (List Nat)}
    (hocc : hasOccupiedCell shape = true)
    (hoob : isOutOfBounds x y shape = false) :
    y < Constants.GRID_HEIGHT := by
  obtain ⟨yB, hyB, hrow⟩ := any_true_at _ _ hocc
  obtain ⟨xB, hxB, hcell⟩ := any_true_at _ _ hrow
  have hc1 : (shape.get ⟨yB, hyB⟩).get ⟨xB, hxB⟩ = 1 := by simpa using hcell
  unfold isOutOfBounds at hoob
  have h1 := anyIdx_false_at _ _ _ hoob yB hyB
  simp only [] at h1
  have h2 := anyIdx_false_at _ _ _ h1 xB hxB
  simp only [hc1, if_pos, Nat.zero_add, Bool.or_eq_false_iff,
    decide_eq_false_iff_not, not_lt, not_le] at h2
  have hyB0 : (0 : Int) ≤ (yB : Int) := Int.natCast_nonneg yB
  omega

/-- Under an unsettled piece, moving down by one is accepted. -/
theorem moveTetromino_down_of_not_settled (s : State)
    (h : isSettled s.currentTetromino s.grid = false) :
    moveTetromino s 0 1 =
      { s with currentTetromino :=
          { s.currentTetromino with
            x := s.currentTetromino.x + 0
            y := s.currentTetromino.y + 1 } } := by
  simp only [moveTetromino]
  rw [if_neg]
  intro hcond
  simp only [Int.add_zero] at hcond
  simp only [isSettled, Bool.or_eq_false_iff] at h
  rcases Bool.or_eq_true_iff.mp hcond with hc | hc
  · rw [h.1] at hc; exact Bool.false_ne_true hc
  · rw [h.2] at hc; exact Bool.false_ne_true hc

/-- The descent lemma: with fuel exceeding the distance to the floor, the
recursion of `dropTetromino` reaches a settled state. -/
theorem dropRec_settles : ∀ (n : Nat) (s : State),
    hasOccupiedCell s.currentTetromino.shape = true →
    (Constants.GRID_HEIGHT - s.currentTetromino.y).toNat < n →
    isSettled (dropOneStepRecursive n s).currentTetromino
      (dropOneStepRecursive n s).grid = true := by
  intro n
  induction n with
  | zero => intro s _ hf; exact absurd hf (Nat.not_lt_zero _)
  | succ n ih =>
    intro s hocc hf
    by_cases hs : isSettled s.currentTetromino s.grid = true
    · simp [dropOneStepRecursive, hs]
    · have hsf : isSettled s.currentTetromino s.grid = false := by
        simpa using hs
      have hmv := moveTetromino_down_of_not_settled s hsf
      have hoob : isOutOfBounds s.currentTetromino.x (s.currentTetromino.y + 1)
          s.currentTetromino.shape = false := by
        have h0 := hsf
        simp only [isSettled, Bool.or_eq_false_iff] at h0
        exact h0.2
      have hy : s.currentTetromino.y + 1 < Constants.GRID_HEIGHT :=
        y_lt_of_not_oob hocc hoob
      rw [show dropOneStepRecursive (n + 1) s
          = dropOneStepRecursive n (moveTetromino s 0 1) from by
        simp [dropOneStepRecursive, hsf]]
      apply ih
      · rw [hmv]; exact hocc
      · rw [hmv]
        simp only [Constants.GRID_HEIGHT] at *
        omega

/-- C8: on a piece with at least one occupied cell, `dropTetromino` reaches a
settled state: translating the result down one more row would collide or go
out of bounds. -/
theorem dropTetromino_settles (s : State)
    (h : hasOccupiedCell s.currentTetromino.shape = true) :
    isSettled (dropTetromino s).currentTetromino (dropTetromino s).grid = true := by
  unfold dropTetromino
  exact dropRec_settles _ s h (Nat.lt_succ_self _)

/-- Witness for C8: an O piece dropped from spawn on an empty grid. -/
theorem dropTetromino_settles_witness :
    isSettled (dropTetromino (mkState emptyGrid (mkT "O" 4 (-2))
        (mkT "T" 3 (-2)))).currentTetromino
      (dropTetromino (mkState emptyGrid (mkT "O" 4 (-2)) (mkT "T" 3 (-2)))).grid
      = true :=
  dropTetromino_settles (mkState emptyGrid (mkT "O" 4 (-2)) (mkT "T" 3 (-2)))
    (by decide)

/-! ## C9: restart carries exactly the high score -/

/-- `rotateTetromino` only ever rewrites the current piece. -/
theorem rotateTetromino_eq (s : State) :
    ∃ t, rotateTetromino s = { s with currentTetromino := t } := by
  simp only [rotateTetromino]
  split
  · exact ⟨_, rfl⟩
  · split
    · exact ⟨_, rfl⟩
    · exact ⟨s.currentTetromino, rfl⟩

/-- `updateState` only ever rewrites the current piece. -/
theorem updateState_eq (s : State) (key : String) :
    ∃ t, updateState s key = { s with currentTetromino := t } := by
  unfold updateState
  split
  · exact moveTetromino_eq s (-1) 0
  · split
    · exact moveTetromino_eq s 1 0
    · split
      · exact moveTetromino_eq s 0 1
      · split
        · exact rotateTetromino_eq s
        · exact ⟨s.currentTetromino, rfl⟩

/-- The drop recursion only ever rewrites the current piece. -/
theorem dropRec_eq : ∀ (n : Nat) (s : State),
    ∃ t, dropOneStepRecursive n s = { s with currentTetromino := t } := by
  intro n
  induction n with
  | zero => exact fun s => ⟨s.currentTetromino, rfl⟩
  | succ n ih =>
    intro s
    by_cases hs : isSettled s.currentTetromino s.grid = true
    · exact ⟨s.currentTetromino, by simp [dropOneStepRecursive, hs]⟩
    · obtain ⟨t0, h0⟩ := moveTetromino_eq s 0 1
      obtain ⟨t1, h1⟩ := ih (moveTetromino s 0 1)
      refine ⟨t1, ?_⟩
      rw [show dropOneStepRecursive (n + 1) s
          = dropOneStepRecursive n (moveTetromino s 0 1) from by
        simp [dropOneStepRecursive, hs]]
      rw [h1, h0]

/-- `dropTetromino` only ever rewrites the current piece. -/
theorem dropTetromino_eq (s : State) :
    ∃ t, dropTetromino s = { s with currentTetromino := t } := by
  unfold dropTetromino
  exact dropRec_eq _ s

/-- `tick` never pushes the score above the high score. -/
theorem tick_scoreInv (s : State) (rng : ℚ) (h : s.score ≤ s.highScore) :
    (tick s rng).score ≤ (tick s rng).highScore := by
  unfold tick
  by_cases h1 : isGameEnd s = true
  · simp [h1, h]
  · rw [if_neg (by simp [h1])]
    by_cases h2 : isSettled s.currentTetromino s.grid = true
    · rw [if_pos (by simp [h2])]
      simp only []
      split <;> omega
    · rw [if_neg (by simp [h2])]
      by_cases h3 : (s.gamePause || s.gameEnd) = true
      · simp [h3, h]
      · obtain ⟨t, ht⟩ := moveTetromino_eq s 0 1
        simp [h3, ht, h]

/-- Every reachable state keeps its score at or below its high score. -/
theorem reachable_scoreInv (init : Tetromino × Tetromino) (s : State)
    (h : Reachable init s) : s.score ≤ s.highScore := by
  induction h with
  | start => exact Nat.le_refl _
  | step s e hr ih =>
    cases e with
    | tickRng r =>
      simp only [handleInput]
      split
      · exact tick_scoreInv s r ih
      · exact ih
    | keyMove k =>
      simp only [handleInput]
      split
      · obtain ⟨t, ht⟩ := updateState_eq s k
        rw [ht]
        exact ih
      · exact ih
    | pauseClick => simpa [handleInput] using ih
    | restartClick => simp [handleInput, INITIAL_STATE_of]
    | dropPair r =>
      simp only [handleInput]
      split
      · unfold hardDrop
        obtain ⟨t, ht⟩ := dropTetromino_eq s
        rw [ht]
        exact tick_scoreInv _ r (by simpa using ih)
      · exact ih
    | holdPair r =>
      simp only [handleInput]
      split
      · cases hh : s.holdTetromino <;> simp [holdState, hh] <;> exact ih
      · exact ih

/-- C9 (amended): from any reachable state, restart produces the initial
state except that the high score carries over — the prior high score when the
score did not exceed it, the prior score when it did (the latter case never
arises) — and the one-shot `gameRestart` flag is set. -/
theorem restart_carries_highScore (init : Tetromino × Tetromino) (s : State)
    (h : Reachable init s) :
    handleInput init s GameInput.restartClick =
      { INITIAL_STATE_of init.1 init.2 with
        gameRestart := true
        highScore := if s.score ≤ s.highScore then s.highScore else s.score } := by
  have hinv := reachable_scoreInv init s h
  simp [handleInput, hinv]

/-- Witness for C9 at the initial state with concrete spawn pieces. -/
theorem restart_carries_highScore_witness :
    handleInput (mkT "O" 4 (-2), mkT "T" 3 (-2))
        (INITIAL_STATE_of (mkT "O" 4 (-2)) (mkT "T" 3 (-2)))
        GameInput.restartClick =
      { INITIAL_STATE_of (mkT "O" 4 (-2)) (mkT "T" 3 (-2)) with
        gameRestart := true
        highScore :=
          if (INITIAL_STATE_of (mkT "O" 4 (-2)) (mkT "T" 3 (-2))).score ≤
              (INITIAL_STATE_of (mkT "O" 4 (-2)) (mkT "T" 3 (-2))).highScore then
            (INITIAL_STATE_of (mkT "O" 4 (-2)) (mkT "T" 3 (-2))).highScore
          else (INITIAL_STATE_of (mkT "O" 4 (-2)) (mkT "T" 3 (-2))).score } :=
  restart_carries_highScore (mkT "O" 4 (-2), mkT "T" 3 (-2)) _ Reachable.start

/-- C9 counterexample: restarting from the initial state (score equal to high
score, both zero) does NOT reproduce the initial state — the result also
differs in the `gameRestart` flag, which restart sets. -/
theorem restart_not_exactly_initial :
    handleInput (mkT "O" 4 (-2), mkT "T" 3 (-2))
        (INITIAL_STATE_of (mkT "O" 4 (-2)) (mkT "T" 3 (-2)))
        GameInput.restartClick ≠
      INITIAL_STATE_of (mkT "O" 4 (-2)) (mkT "T" 3 (-2)) := by
  decide
